import Mathlib

/-!
Verification development for the grumble voice-chat server core.

The Go sources are shallowly embedded in Lean: byte strings become
`List Nat` (each entry reduced mod 256 where it is read as a byte),
machine integers become `Nat` with explicit `% 2^w` at the points where
the Go code casts, and fallible parsing returns `Option`.  Go slice
expressions whose bounds are known to stay within the buffer are modelled
with `List.drop`/`List.take`; where a bound can exceed the buffer, the
slice is guarded and the Go runtime panic is marked with `Except.error`
(buffers are modelled with capacity equal to their length, an exact
allocation).  A Go function returning a typed nil pointer inside an
interface is modelled as `none`.
-/

/-- Read index `i` of a byte string, reduced to a byte; out of range reads 0. -/
def byteAt (bs : List Nat) (i : Nat) : Nat := bs.getD i 0 % 256

/-- Little-endian integer of the first `n` bytes of `bs` (binary.LittleEndian). -/
def leRead : List Nat → Nat → Nat
  | _, 0 => 0
  | bs, n + 1 => byteAt bs 0 + 256 * leRead bs.tail n

/-- binary.LittleEndian.Uint32. -/
def Uint32LE (bs : List Nat) : Nat := leRead bs 4

/-- binary.LittleEndian.Uint64. -/
def Uint64LE (bs : List Nat) : Nat := leRead bs 8

/-- Little-endian byte emission of `v` on `n` bytes (binary.LittleEndian.AppendUintN). -/
def leWrite : Nat → Nat → List Nat
  | _, 0 => []
  | v, n + 1 => v % 256 :: leWrite (v / 256) n

/-- Big-endian byte emission of `v` on `n` bytes. -/
def beWrite (v n : Nat) : List Nat := (leWrite v n).reverse

/-- Truncation to an unsigned 64-bit value. -/
def mask64 (v : Nat) : Nat := v % 2 ^ 64

/--
Modelled from the spec: the packet-buffer utility (`pkg/packetdata`, not in
`src/`): a byte/bit cursor over a datagram with varint helpers, skip,
remaining length and a validity flag that goes false once a read overran.
-/
structure PacketData where
  buf : List Nat
  off : Nat
  ok : Bool
deriving DecidableEq, Repr

def PacketData.new (b : List Nat) : PacketData := ⟨b, 0, true⟩

def PacketData.IsValid (p : PacketData) : Bool := p.ok

def PacketData.Size (p : PacketData) : Nat := p.off

def PacketData.Left (p : PacketData) : Nat := p.buf.length - p.off

def PacketData.invalidate (p : PacketData) : PacketData := { p with ok := false }

/-- Read a single byte; on overrun, return 0 and clear the validity flag. -/
def PacketData.Next8 (p : PacketData) : Nat × PacketData :=
  if p.off < p.buf.length then (byteAt p.buf p.off, { p with off := p.off + 1 })
  else (0, p.invalidate)

/-- Skip `n` bytes; on overrun, clear the validity flag. -/
def PacketData.Skip (p : PacketData) (n : Nat) : PacketData :=
  if n ≤ p.Left then { p with off := p.off + n } else p.invalidate

/--
Modelled from the spec: the Mumble varint decoder behind the cursor's
"varint helpers".  The fuel argument only bounds the recursion of the
complemented form; it is called with more fuel than bytes remain, so the
fuel-exhaustion branch is unreachable.
-/
def varintDecodeAux : Nat → PacketData → Nat × PacketData
  | 0, p => (0, p.invalidate)
  | fuel + 1, p =>
    let (v, p) := p.Next8
    if v &&& 0x80 == 0 then (v &&& 0x7F, p)
    else if v &&& 0xC0 == 0x80 then
      let (b, p) := p.Next8
      (((v &&& 0x3F) <<< 8) ||| b, p)
    else if v &&& 0xF0 == 0xF0 then
      if v &&& 0xFC == 0xF0 then
        let (b0, p) := p.Next8
        let (b1, p) := p.Next8
        let (b2, p) := p.Next8
        let (b3, p) := p.Next8
        ((b0 <<< 24) ||| (b1 <<< 16) ||| (b2 <<< 8) ||| b3, p)
      else if v &&& 0xFC == 0xF4 then
        let (b0, p) := p.Next8
        let (b1, p) := p.Next8
        let (b2, p) := p.Next8
        let (b3, p) := p.Next8
        let (b4, p) := p.Next8
        let (b5, p) := p.Next8
        let (b6, p) := p.Next8
        let (b7, p) := p.Next8
        ((b0 <<< 56) ||| (b1 <<< 48) ||| (b2 <<< 40) ||| (b3 <<< 32) |||
          (b4 <<< 24) ||| (b5 <<< 16) ||| (b6 <<< 8) ||| b7, p)
      else if v &&& 0xFC == 0xF8 then
        let (x, p) := varintDecodeAux fuel p
        (mask64 (2 ^ 64 - 1 - mask64 x), p)
      else
        (2 ^ 64 - 1 - (v &&& 0x03), p)
    else if v &&& 0xF0 == 0xE0 then
      let (b0, p) := p.Next8
      let (b1, p) := p.Next8
      let (b2, p) := p.Next8
      (((v &&& 0x0F) <<< 24) ||| (b0 <<< 16) ||| (b1 <<< 8) ||| b2, p)
    else
      let (b0, p) := p.Next8
      let (b1, p) := p.Next8
      (((v &&& 0x1F) <<< 16) ||| (b0 <<< 8) ||| b1, p)

/-- Varint read of an unsigned 64-bit value. -/
def PacketData.GetUint64 (p : PacketData) : Nat × PacketData :=
  varintDecodeAux (p.buf.length + 1) p

/-- Varint read truncated to 32 bits. -/
def PacketData.GetUint32 (p : PacketData) : Nat × PacketData :=
  let (v, q) := p.GetUint64
  (v &&& 0xFFFFFFFF, q)

/-- Varint read truncated to 16 bits. -/
def PacketData.GetUint16 (p : PacketData) : Nat × PacketData :=
  let (v, q) := p.GetUint64
  (v &&& 0xFFFF, q)

/-- Read a little-endian IEEE-754 float32, kept as its 32-bit pattern. -/
def PacketData.GetFloat32 (p : PacketData) : Nat × PacketData :=
  let (b0, p) := p.Next8
  let (b1, p) := p.Next8
  let (b2, p) := p.Next8
  let (b3, p) := p.Next8
  (b0 ||| (b1 <<< 8) ||| (b2 <<< 16) ||| (b3 <<< 24), p)

/--
Modelled from the spec: the emission side of the packet buffer.  The Go
code writes into a fixed 32+payload byte buffer through a cursor and then
keeps the written slice; the model records the written bytes and the
capacity, clearing `ok` on overflow.
-/
structure PDWriter where
  out : List Nat
  cap : Nat
  ok : Bool
deriving DecidableEq, Repr

def PDWriter.new (cap : Nat) : PDWriter := ⟨[], cap, true⟩

def PDWriter.Size (w : PDWriter) : Nat := w.out.length

def PDWriter.putByte (w : PDWriter) (b : Nat) : PDWriter :=
  if w.out.length < w.cap then { w with out := w.out ++ [b % 256] }
  else { w with ok := false }

def PDWriter.CopyBytes (w : PDWriter) (bs : List Nat) : PDWriter :=
  if w.out.length + bs.length ≤ w.cap then { w with out := w.out ++ bs.map (· % 256) }
  else { w with ok := false }

/-- Modelled from the spec: the Mumble varint emission used by PutUint32. -/
def varintEncode (v : Nat) : List Nat :=
  if v < 0x80 then [v]
  else if v < 0x4000 then [0x80 ||| (v >>> 8), v &&& 0xFF]
  else if v < 0x200000 then [0xC0 ||| (v >>> 16), (v >>> 8) &&& 0xFF, v &&& 0xFF]
  else if v < 0x10000000 then
    [0xE0 ||| (v >>> 24), (v >>> 16) &&& 0xFF, (v >>> 8) &&& 0xFF, v &&& 0xFF]
  else if v < 0x100000000 then 0xF0 :: beWrite v 4
  else 0xF4 :: beWrite (mask64 v) 8

/-- Varint write of a 32-bit value. -/
def PDWriter.PutUint32 (w : PDWriter) (v : Nat) : PDWriter :=
  (varintEncode (v % 2 ^ 32)).foldl PDWriter.putByte w

/-! ## UDP packet model (src/tlsserver.go, package mumbleproto) -/

/-- Length-delimited packet tag for audio (`UDPPacketAudio = iota` = 0). -/
def UDPPacketAudio : Nat := 0

/-- Length-delimited packet tag for ping (second `iota` value = 1). -/
def UDPPacketPing : Nat := 1

/-- Modelled from the spec: legacy message kind 0 = voice CELT alpha. -/
def UDPMessageVoiceCELTAlpha : Nat := 0

/-- Modelled from the spec: legacy message kind 1 = ping. -/
def UDPMessagePing : Nat := 1

/-- Modelled from the spec: legacy message kind 2 = voice Speex. -/
def UDPMessageVoiceSpeex : Nat := 2

/-- Modelled from the spec: legacy message kind 3 = voice CELT beta. -/
def UDPMessageVoiceCELTBeta : Nat := 3

/-- Modelled from the spec: legacy message kind 4 = voice Opus. -/
def UDPMessageVoiceOpus : Nat := 4

/-- Audio codec enumeration (`CodecOpus = iota`, then CELT alpha/beta, Speex). -/
inductive AudioCodec where
  | CodecOpus
  | CodecCELTAlpha
  | CodecCELTBeta
  | CodecSpeex
deriving DecidableEq, Repr

/--
A parsed ping packet.  The embedded protobuf message `PingUDP` is kept to
the fields the embedded code reads and writes (`Timestamp`,
`RequestExtendedInformation`); Go zero values are the defaults.
-/
structure PingPacket where
  Timestamp : Nat := 0
  RequestExtendedInformation : Bool := false
deriving DecidableEq, Repr

/--
A parsed audio packet: the embedded protobuf message `AudioUDP`
(`Target`, `SenderSession`, `FrameNumber`, `OpusData`, `PositionalData`,
`IsTerminator`) plus the wrapper fields `UsedCodec`, `TargetOrContext`
and `Payload`.  Float32 values are kept as 32-bit patterns.
-/
structure AudioPacket where
  Target : Nat := 0
  SenderSession : Nat := 0
  FrameNumber : Nat := 0
  OpusData : List Nat := []
  PositionalData : List Nat := []
  IsTerminator : Bool := false
  UsedCodec : AudioCodec := .CodecOpus
  TargetOrContext : Nat := 0
  Payload : List Nat := []
deriving DecidableEq, Repr

/-- The `UDPPacket` interface as a tagged sum of the two implementations. -/
inductive UDPPacket where
  | ping (p : PingPacket)
  | audio (a : AudioPacket)
deriving DecidableEq, Repr

/-! ### Protobuf serialization model

The protobuf schema (`PingUDP`/`AudioUDP`) is not part of the embedded
sources; `proto.Marshal`/`proto.Unmarshal` are modelled from the spec
("payloads are serialized in the canonical Mumble protobuf schema") as a
standard protobuf wire encoding with varint fields, default-valued fields
omitted, and the empty byte string decoding to the default message. -/

/-- Protobuf base-128 varint emission. -/
def pbVarintEnc (v : Nat) : List Nat :=
  if v < 0x80 then [v] else (v % 0x80 + 0x80) :: pbVarintEnc (v / 0x80)
decreasing_by exact Nat.div_lt_self (by omega) (by omega)

/-- Protobuf base-128 varint decode (at most 10 bytes), returning the rest. -/
def pbVarintDecAux : Nat → List Nat → Option (Nat × List Nat)
  | 0, _ => none
  | _, [] => none
  | fuel + 1, b :: rest =>
    let b := b % 256
    if b < 0x80 then some (b, rest)
    else
      match pbVarintDecAux fuel rest with
      | none => none
      | some (v, rest) => some ((b &&& 0x7F) + v * 0x80, rest)

def pbReadVarint (bs : List Nat) : Option (Nat × List Nat) :=
  match pbVarintDecAux 10 bs with
  | none => none
  | some (v, rest) => some (mask64 v, rest)

/-- Skip one protobuf field value of wire type `wire`; `none` on malformed input. -/
def pbSkipField (wire : Nat) (bs : List Nat) : Option (List Nat) :=
  if wire == 0 then (pbReadVarint bs).map (·.2)
  else if wire == 1 then if 8 ≤ bs.length then some (bs.drop 8) else none
  else if wire == 2 then
    match pbReadVarint bs with
    | none => none
    | some (len, rest) => if len ≤ rest.length then some (rest.drop len) else none
  else if wire == 5 then if 4 ≤ bs.length then some (bs.drop 4) else none
  else none

/-- Modelled from the spec: `proto.Marshal` of a `PingUDP` message. -/
def marshalPing (p : PingPacket) : List Nat :=
  (if p.Timestamp ≠ 0 then 0x08 :: pbVarintEnc (mask64 p.Timestamp) else []) ++
    (if p.RequestExtendedInformation then [0x10, 1] else [])

/-- Modelled from the spec: `proto.Unmarshal` into a `PingUDP` message. -/
def pingUnmarshalAux : Nat → List Nat → PingPacket → Option PingPacket
  | _, [], acc => some acc
  | 0, _ :: _, _ => none
  | fuel + 1, bs, acc =>
    match pbReadVarint bs with
    | none => none
    | some (tag, rest) =>
      if tag == 0x08 then
        match pbReadVarint rest with
        | none => none
        | some (v, rest) => pingUnmarshalAux fuel rest { acc with Timestamp := v }
      else if tag == 0x10 then
        match pbReadVarint rest with
        | none => none
        | some (v, rest) =>
          pingUnmarshalAux fuel rest { acc with RequestExtendedInformation := v ≠ 0 }
      else
        match pbSkipField (tag &&& 7) rest with
        | none => none
        | some rest => pingUnmarshalAux fuel rest acc

/-- Split a packed little-endian float32 list into 32-bit patterns. -/
def floatsOfBytes : List Nat → List Nat
  | b0 :: b1 :: b2 :: b3 :: rest => Uint32LE [b0, b1, b2, b3] :: floatsOfBytes rest
  | _ => []

/-- Modelled from the spec: `proto.Marshal` of an `AudioUDP` message. -/
def marshalAudio (a : AudioPacket) : List Nat :=
  (if a.Target ≠ 0 then 0x08 :: pbVarintEnc (a.Target % 2 ^ 32) else []) ++
    (if a.SenderSession ≠ 0 then 0x18 :: pbVarintEnc (a.SenderSession % 2 ^ 32) else []) ++
    (if a.FrameNumber ≠ 0 then 0x20 :: pbVarintEnc (mask64 a.FrameNumber) else []) ++
    (if a.OpusData ≠ [] then
      0x2A :: (pbVarintEnc a.OpusData.length ++ a.OpusData.map (· % 256))
    else []) ++
    (if a.PositionalData ≠ [] then
      0x32 :: (pbVarintEnc (4 * a.PositionalData.length) ++
        (a.PositionalData.map (leWrite · 4)).flatten)
    else []) ++
    (if a.IsTerminator then [0x40, 1] else [])

/-- Modelled from the spec: `proto.Unmarshal` into an `AudioUDP` message. -/
def audioUnmarshalAux : Nat → List Nat → AudioPacket → Option AudioPacket
  | _, [], acc => some acc
  | 0, _ :: _, _ => none
  | fuel + 1, bs, acc =>
    match pbReadVarint bs with
    | none => none
    | some (tag, rest) =>
      if tag == 0x08 then
        match pbReadVarint rest with
        | none => none
        | some (v, rest) => audioUnmarshalAux fuel rest { acc with Target := v % 2 ^ 32 }
      else if tag == 0x18 then
        match pbReadVarint rest with
        | none => none
        | some (v, rest) =>
          audioUnmarshalAux fuel rest { acc with SenderSession := v % 2 ^ 32 }
      else if tag == 0x20 then
        match pbReadVarint rest with
        | none => none
        | some (v, rest) => audioUnmarshalAux fuel rest { acc with FrameNumber := v }
      else if tag == 0x2A then
        match pbReadVarint rest with
        | none => none
        | some (len, rest) =>
          if len ≤ rest.length then
            audioUnmarshalAux fuel (rest.drop len)
              { acc with OpusData := (rest.take len).map (· % 256) }
          else none
      else if tag == 0x32 then
        match pbReadVarint rest with
        | none => none
        | some (len, rest) =>
          if len ≤ rest.length then
            audioUnmarshalAux fuel (rest.drop len)
              { acc with PositionalData := floatsOfBytes (rest.take len) }
          else none
      else if tag == 0x40 then
        match pbReadVarint rest with
        | none => none
        | some (v, rest) => audioUnmarshalAux fuel rest { acc with IsTerminator := v ≠ 0 }
      else
        match pbSkipField (tag &&& 7) rest with
        | none => none
        | some rest => audioUnmarshalAux fuel rest acc

/-- `parsePingPacketProtobuf` (src/tlsserver.go): unmarshal, `none` on error. -/
def parsePingPacketProtobuf (data : List Nat) : Option PingPacket :=
  pingUnmarshalAux (data.length + 1) data {}

/-- `parseAudioPacketProtobuf` (src/tlsserver.go): unmarshal, fill the wrapper
fields; audio packets without Opus data are invalid. -/
def parseAudioPacketProtobuf (data : List Nat) : Option AudioPacket :=
  match audioUnmarshalAux (data.length + 1) data {} with
  | none => none
  | some audio =>
    let audio := { audio with TargetOrContext := audio.Target % 256, UsedCodec := .CodecOpus }
    if audio.OpusData = [] then none
    else some { audio with Payload := audio.OpusData }

/-- `PingPacket.LegacyData` (src/tlsserver.go): kind byte `UDPMessagePing << 5`,
a zero little-endian uint32, then the 64-bit timestamp. -/
def PingPacket.LegacyData (p : PingPacket) : List Nat :=
  (UDPMessagePing <<< 5) :: (leWrite 0 4 ++ leWrite p.Timestamp 8)

/-- `PingPacket.ProtobufData` (src/tlsserver.go): tag byte `UDPPacketPing`,
then the marshalled `PingUDP`. -/
def PingPacket.ProtobufData (p : PingPacket) : List Nat :=
  UDPPacketPing :: marshalPing p

/-- `AudioPacket.LegacyData` (src/tlsserver.go): kind byte from the codec with
zero low bits, then varint sender session, varint frame number (cast to
uint32), the codec payload, written through the packet-data cursor into a
32+payload byte buffer. -/
def AudioPacket.LegacyData (a : AudioPacket) : List Nat :=
  let kindByte :=
    match a.UsedCodec with
    | .CodecCELTAlpha => UDPMessageVoiceCELTAlpha <<< 5
    | .CodecCELTBeta => UDPMessageVoiceCELTBeta <<< 5
    | .CodecSpeex => UDPMessageVoiceSpeex <<< 5
    | .CodecOpus => UDPMessageVoiceOpus <<< 5
  let w := PDWriter.new (31 + a.Payload.length)
  let w := w.PutUint32 a.SenderSession
  let w := w.PutUint32 (a.FrameNumber % 2 ^ 32)
  let w :=
    match a.UsedCodec with
    | .CodecCELTAlpha | .CodecCELTBeta | .CodecSpeex => w.CopyBytes a.Payload
    | .CodecOpus =>
      let flag := a.Payload.length ||| (if a.IsTerminator then 0x2000 else 0)
      (w.PutUint32 flag).CopyBytes a.Payload
  kindByte :: w.out

/-- `AudioPacket.ProtobufData` (src/tlsserver.go): the source writes the tag
byte `UDPPacketPing` (not `UDPPacketAudio`), then the marshalled `AudioUDP`. -/
def AudioPacket.ProtobufData (a : AudioPacket) : List Nat :=
  UDPPacketPing :: marshalAudio a

/-- Interface dispatch of `LegacyData`. -/
def UDPPacket.LegacyData : UDPPacket → List Nat
  | .ping p => p.LegacyData
  | .audio a => a.LegacyData

/-- Interface dispatch of `ProtobufData`. -/
def UDPPacket.ProtobufData : UDPPacket → List Nat
  | .ping p => p.ProtobufData
  | .audio a => a.ProtobufData

/-- Modelled from the spec: the `Data(legacy bool)` contract picks the wire
format per recipient. -/
def UDPPacket.Data (pkt : UDPPacket) (legacy : Bool) : List Nat :=
  if legacy then pkt.LegacyData else pkt.ProtobufData

/-- `parsePingPacketLegacy` (src/tlsserver.go): exactly 12 bytes, the first
little-endian uint32 zero; the remaining 8 bytes are the opaque timestamp and
the packet requests extended information. -/
def parsePingPacketLegacy (data : List Nat) : Option PingPacket :=
  if data.length ≠ 12 || Uint32LE data ≠ 0 then none
  else some { Timestamp := Uint64LE (data.drop 4), RequestExtendedInformation := true }

/-- The TOC-byte chain loop of `parseAudioPacketLegacy`: each TOC byte holds a
7-bit frame length and a continuation bit; a zero-length frame marks the
terminator.  Returns the cursor, accumulated payload size and terminator flag.
The fuel starts above the buffer length, so exhaustion is unreachable. -/
def tocLoopAux : Nat → PacketData → Nat → Bool → PacketData × Nat × Bool
  | 0, p, payloadSize, isTerm => (p.invalidate, payloadSize, isTerm)
  | fuel + 1, p, payloadSize, isTerm =>
    let (flag, p) := p.Next8
    let frameSize := flag &&& 0x7F
    let isTerm := if frameSize == 0 then true else isTerm
    let payloadSize := payloadSize + frameSize
    let p := p.Skip frameSize
    if flag &&& 0x80 == 0 || !p.IsValid then (p, payloadSize, isTerm)
    else tocLoopAux fuel p payloadSize isTerm

/-- The consuming stage of `parseAudioPacketLegacy` (src/tlsserver.go), up to
the validity check and payload slice, returning the packet so far and the
cursor at the point of the trailing-bytes decision.  The payload slice
`data[1+offset : 1+offset+payloadSize]` (whose `offset` is taken after the
`Skip` in the Opus arm) is a Go runtime panic whenever its upper bound
exceeds the buffer length — the buffer is modelled with capacity equal to
its length — and that panic is `Except.error`; `.ok none` is the `nil`
return. -/
def audioConsume (data : List Nat) (codec : AudioCodec) :
    Except Unit (Option (AudioPacket × PacketData)) :=
  if data.length < 3 then .ok none
  else
    let incoming := PacketData.new (data.drop 1)
    let (frameNumber, incoming) := incoming.GetUint64
    let (offset, payloadSize, isTerm, incoming) :=
      match codec with
      | .CodecSpeex | .CodecCELTAlpha | .CodecCELTBeta =>
        let offset := incoming.Size
        let (incoming, payloadSize, isTerm) := tocLoopAux (incoming.buf.length + 1) incoming 0 false
        (offset, payloadSize, isTerm, incoming)
      | .CodecOpus =>
        let (size, incoming) := incoming.GetUint16
        let payloadSize := size &&& 0x1FFF
        let isTerm := size &&& 0x2000 != 0
        let incoming := incoming.Skip payloadSize
        let offset := incoming.Size
        (offset, payloadSize, isTerm, incoming)
    if !incoming.IsValid then .ok none
    else if 1 + offset + payloadSize ≤ data.length then
      .ok (some ({ UsedCodec := codec, TargetOrContext := byteAt data 0 &&& 0x1F,
                   FrameNumber := frameNumber, IsTerminator := isTerm,
                   Payload := (data.drop (1 + offset)).take payloadSize }, incoming))
    else .error ()

/-- `parseAudioPacketLegacy` (src/tlsserver.go) with the panic tracked:
after the codec payload, either no bytes remain, or exactly 12 bytes remain
and are read as three float32 values of positional audio; any other
remainder invalidates the packet.  `Except.error` propagates the payload
slice panic of `audioConsume`. -/
def parseAudioPacketLegacyE (data : List Nat) (codec : AudioCodec) :
    Except Unit (Option AudioPacket) :=
  match audioConsume data codec with
  | .error e => .error e
  | .ok none => .ok none
  | .ok (some (audio, incoming)) =>
    if incoming.Left == 3 * 4 then
      let (f0, incoming) := incoming.GetFloat32
      let (f1, incoming) := incoming.GetFloat32
      let (f2, _) := incoming.GetFloat32
      .ok (some { audio with PositionalData := [f0, f1, f2] })
    else if incoming.Left > 0 then .ok none
    else .ok (some audio)

/-- The `Option`-level view of `parseAudioPacketLegacy` used by
`ParseUDPPacket`: a panicking parse tears down the goroutine and never
produces a packet value, so the panic contributes no packet here; the
panic itself is distinguished by `parseAudioPacketLegacyE`. -/
def parseAudioPacketLegacy (data : List Nat) (codec : AudioCodec) : Option AudioPacket :=
  match parseAudioPacketLegacyE data codec with
  | .ok r => r
  | .error _ => none

/-- `ParseUDPPacket` (src/tlsserver.go): dispatch on the first byte.  In
legacy mode, a first byte equal to `UDPPacketPing` is tried as a
length-delimited ping; a 12- or 24-byte datagram is tried as a legacy
extended ping; otherwise the top three header bits select the kind.  In
length-delimited mode the tag selects ping or audio. -/
def ParseUDPPacket (data : List Nat) (isLegacy : Bool) : Option UDPPacket × Bool :=
  match data, isLegacy with
  | [], _ => (none, isLegacy)
  | h :: rest, true =>
    let header := h % 256
    if header == UDPPacketPing then ((parsePingPacketProtobuf rest).map .ping, false)
    else
      match (if data.length == 12 || data.length == 24 then parsePingPacketLegacy data
             else none) with
      | some packet => (some (.ping packet), true)
      | none =>
        let kind := (header >>> 5) &&& 0x07
        if kind == UDPMessagePing then ((parsePingPacketLegacy rest).map .ping, true)
        else if kind == UDPMessageVoiceSpeex then
          ((parseAudioPacketLegacy rest .CodecSpeex).map .audio, true)
        else if kind == UDPMessageVoiceCELTAlpha then
          ((parseAudioPacketLegacy rest .CodecCELTAlpha).map .audio, true)
        else if kind == UDPMessageVoiceCELTBeta then
          ((parseAudioPacketLegacy rest .CodecCELTBeta).map .audio, true)
        else if kind == UDPMessageVoiceOpus then
          ((parseAudioPacketLegacy rest .CodecOpus).map .audio, true)
        else (none, true)
  | h :: rest, false =>
    let header := h % 256
    if header == UDPPacketPing then ((parsePingPacketProtobuf rest).map .ping, false)
    else if header == UDPPacketAudio then ((parseAudioPacketProtobuf rest).map .audio, false)
    else (none, false)

/-! ## Client state model (src/unnamed/part_000) -/

/-- The client lifecycle states.  Modelled from the spec: the numeric state
constants are declared outside the embedded sources; only their identity
matters here. -/
inductive ClientState where
  | StateClientConnected
  | StateServerSentVersion
  | StateClientSentVersion
  | StateClientAuthenticated
  | StateClientReady
deriving DecidableEq, Repr

/-- The client and server state touched by `Client.disconnect`: the
disconnected flag, the lifecycle state, the open/closed state of the UDP
receive queue, the readiness signal and the transport, the server's
session index, the log of `RemoveClient` calls and the count of
`updateCodecVersions` runs.  `RemoveClient` and `updateCodecVersions` are
modelled from the spec (removal from the server's indexes; recompute of
the aggregate codec preference), as they are outside the embedded sources. -/
structure DisconnectWorld where
  disconnected : Bool
  state : ClientState
  session : Nat
  serverSessions : List Nat
  udprecvOpen : Bool
  clientReadyOpen : Bool
  connOpen : Bool
  removeCalls : List (Nat × Bool)
  codecRecomputes : Nat
deriving DecidableEq, Repr

/-- `Client.disconnect` (src/unnamed/part_000): guarded by the
`disconnected` flag; the first call removes the client from the server,
closes `udprecv`, closes the readiness signal when the state is
ClientSentVersion or ClientAuthenticated, closes the transport and
recomputes the server codec preference. -/
def disconnect (kicked : Bool) (w : DisconnectWorld) : DisconnectWorld :=
  if w.disconnected then w
  else
    { w with
      disconnected := true
      serverSessions := w.serverSessions.filter (· ≠ w.session)
      removeCalls := w.removeCalls ++ [(w.session, kicked)]
      udprecvOpen := false
      clientReadyOpen :=
        if w.state = .StateClientSentVersion ∨ w.state = .StateClientAuthenticated then false
        else w.clientReadyOpen
      connOpen := false
      codecRecomputes := w.codecRecomputes + 1 }

/-- `Client.Disconnect`: client requested or server shutdown. -/
def ClientDisconnect (w : DisconnectWorld) : DisconnectWorld := disconnect false w

/-- `Client.ForceDisconnect`: kick/ban. -/
def ClientForceDisconnect (w : DisconnectWorld) : DisconnectWorld := disconnect true w

/-- `Client.Panic`: log and disconnect. -/
def ClientPanic (w : DisconnectWorld) : DisconnectWorld := ClientDisconnect w

/-- A control-plane message as queued to the server (`Message{buf, kind, client}`). -/
structure Message where
  kind : Nat
  buf : List Nat
  clientSession : Nat
deriving DecidableEq, Repr

/-- Modelled from the spec: the `UDPTunnel` control message kind is 1. -/
def MessageUDPTunnel : Nat := 1

/-- The client state touched by the Ready-state arm of `Client.tlsRecvLoop`:
the udp flag, the UDP receive queue, the server's incoming queue, and a
count of `ResetIdleSeconds` calls on the bandwidth recorder. -/
structure RecvWorld where
  session : Nat
  udp : Bool
  udprecvQ : List (List Nat)
  incomingQ : List Message
  idleResets : Nat
deriving DecidableEq, Repr

/-- The Ready-state handling of one control frame in `Client.tlsRecvLoop`
(src/unnamed/part_000): `UDPTunnel` frames clear the udp flag and go to the
client's UDP receive queue; every other kind resets the idle counter and is
queued to the server. -/
def readyHandle (w : RecvWorld) (kind : Nat) (buf : List Nat) : RecvWorld :=
  if kind == MessageUDPTunnel then
    { w with udp := false, udprecvQ := w.udprecvQ ++ [buf] }
  else
    { w with idleResets := w.idleResets + 1,
             incomingQ := w.incomingQ ++ [⟨kind, buf, w.session⟩] }

/-- Modelled from the spec: the bandwidth recorder admits a frame only when
the sliding-window byte sum stays within the limit; the window state is the
current sum. -/
def AddFrame (windowBytes bytes maxPerSecond : Nat) : Bool × Nat :=
  if windowBytes + bytes ≤ maxPerSecond then (true, windowBytes + bytes)
  else (false, windowBytes)

/-- The state threaded through `Client.udpRecvLoop` (src/unnamed/part_000):
the bandwidth window, the configured `MaxBandwidth`, whether the peer pair
speaks only the legacy format, the client session, and the observable
effects (UDP sends before encryption, voice-broadcast submissions, log
lines). -/
structure UdpLoopWorld where
  windowBytes : Nat
  maxBandwidth : Nat
  isLegacy : Bool
  session : Nat
  sentUDP : List (List Nat)
  broadcasts : List AudioPacket
  logLines : Nat
deriving DecidableEq, Repr

/-- `Client.udpRecvLoop` (src/unnamed/part_000) over a queue of datagrams:
a zero-length buffer ends the loop; a frame the bandwidth recorder rejects
logs and returns; an unparseable datagram logs and returns; a ping is
echoed back; a loopback-target audio packet is echoed after stamping the
sender session; other audio packets go to the voice broadcast queue. -/
def udpRecvLoop (queue : List (List Nat)) (w : UdpLoopWorld) : UdpLoopWorld :=
  match queue with
  | [] => w
  | buf :: rest =>
    if buf.length == 0 then w
    else
      match AddFrame w.windowBytes buf.length w.maxBandwidth with
      | (false, _) => { w with logLines := w.logLines + 1 }
      | (true, window) =>
        let w := { w with windowBytes := window }
        match ParseUDPPacket buf w.isLegacy with
        | (none, _) => { w with logLines := w.logLines + 1 }
        | (some pkt, legacy) =>
          match pkt with
          | .ping p =>
            udpRecvLoop rest { w with sentUDP := w.sentUDP ++ [(UDPPacket.ping p).Data legacy] }
          | .audio a =>
            let a := { a with SenderSession := w.session }
            if a.TargetOrContext == 31 then
              udpRecvLoop rest
                { w with sentUDP := w.sentUDP ++ [(UDPPacket.audio a).Data legacy] }
            else
              udpRecvLoop rest { w with broadcasts := w.broadcasts ++ [a] }

/-- The `CryptSetup` control message, reduced to its three byte-string
fields; `none` is an absent optional field. -/
structure CryptSetup where
  Key : Option (List Nat) := none
  ClientNonce : Option (List Nat) := none
  ServerNonce : Option (List Nat) := none
deriving DecidableEq, Repr

/-- `Client.cryptResync` (src/unnamed/part_000) as a function of the current
wall-clock second, the crypt state's `LastGoodTime` and the client's
`lastResync`: when both are more than 5 seconds old it records the new
resync time and sends an empty `CryptSetup`; otherwise nothing is sent. -/
def cryptResync (now lastGoodTime lastResync : Int) : Int × List CryptSetup :=
  if now - lastGoodTime > 5 then
    if now - lastResync > 5 then (now, [{}])
    else (lastResync, [])
  else (lastResync, [])

/-! ## Freeze-to-file model (src/pkg/database/ban_test.go, second unit) -/

/-- The slice of the on-disk state `freezeToFile` touches: the canonical
snapshot `main.fz`, the retained `backup.fz`, and the temporary file. -/
structure FreezeFS where
  mainFz : Option (List Nat) := none
  backupFz : Option (List Nat) := none
  tempFz : Option (List Nat) := none
deriving DecidableEq, Repr

/-- The server-side inputs of `freezeToFile`: whether the freeze log is
open, and the marshalled snapshot the `Freeze`/`proto.Marshal` pair
produces when it succeeds. -/
structure FreezeServer where
  freezelogOpen : Bool
  snapshot : List Nat
deriving DecidableEq, Repr

/-- Take the next success/failure outcome from the failure schedule; an
exhausted schedule means success. -/
def oracleNext (o : List Bool) : Bool × List Bool := (o.headD true, o.tail)

/-- `Server.freezeToFile` (src/pkg/database/ban_test.go, second unit),
with every fallible step driven by a failure schedule: close the freeze
log, serialize the state (`Freeze` + `proto.Marshal`), create the
temporary `.main.fz_` file, write, sync and close it, then install it as
`main.fz` — by plain `os.Rename` when `main.fz` does not exist, else by
`replacefile.ReplaceFile` keeping the old `main.fz` as `backup.fz`.
`ReplaceFile` is modelled from the spec as an OS-level atomic-replace
primitive (all-or-nothing, with a backup alongside); a failed write leaves
a partial temporary file; a failed rename moves nothing. -/
def freezeToFile (srv : FreezeServer) (fs : FreezeFS) (oracle : List Bool) :
    Bool × FreezeFS :=
  let (ok, oracle) :=
    if srv.freezelogOpen then oracleNext oracle else (true, oracle)
  if !ok then (false, fs)
  else
    let (ok, oracle) := oracleNext oracle
    if !ok then (false, fs)
    else
      let (ok, oracle) := oracleNext oracle
      if !ok then (false, fs)
      else
        let fs := { fs with tempFz := some [] }
        let (ok, oracle) := oracleNext oracle
        if !ok then (false, fs)
        else
          let (ok, oracle) := oracleNext oracle
          if !ok then
            (false, { fs with tempFz := some (srv.snapshot.take (srv.snapshot.length / 2)) })
          else
            let fs := { fs with tempFz := some srv.snapshot }
            let (ok, oracle) := oracleNext oracle
            if !ok then (false, fs)
            else
              let (ok, oracle) := oracleNext oracle
              if !ok then (false, fs)
              else
                match fs.mainFz with
                | none =>
                  let (ok, _) := oracleNext oracle
                  if !ok then (false, fs)
                  else (true, { fs with mainFz := some srv.snapshot, tempFz := none })
                | some prior =>
                  let (ok, _) := oracleNext oracle
                  if !ok then (false, fs)
                  else
                    (true, { fs with mainFz := some srv.snapshot,
                                     backupFz := some prior, tempFz := none })

/-! ## Ban store model (src/tlsserver.go, package database) -/

/-- A ban record (`database.Ban`); `Start` is a wall-clock value and the Go
field name `Duraion` is kept. -/
structure Ban where
  ServerID : Nat
  Base : List Nat := []
  Mask : Int := 0
  Name : String := ""
  Hash : List Nat := []
  Reason : String := ""
  Start : Int := 0
  Duraion : Int := 0
deriving DecidableEq, Repr

/-- `DbTx.BanRead` (src/tlsserver.go): rows with the given server id, with
the offset and limit applied, plus the total matching count. -/
def BanRead (db : List Ban) (sid : Nat) (limit offset : Nat) : List Ban × Nat :=
  let rows := db.filter (·.ServerID = sid)
  ((rows.drop offset).take limit, rows.length)

/-- `DbTx.BanWrite` (src/tlsserver.go): delete every ban row (the condition
is the constant `"TRUE"`), then insert the given list. -/
def BanWrite (db : List Ban) (bans : List Ban) : List Ban :=
  let db := db.filter (fun _ => false)
  db ++ bans

/-! ## Helper lemmas -/

theorem leWrite_length (v n : Nat) : (leWrite v n).length = n := by
  induction n generalizing v with
  | zero => rfl
  | succ n ih => simp [leWrite, ih]

theorem leRead_lt (bs : List Nat) (n : Nat) : leRead bs n < 256 ^ n := by
  induction n generalizing bs with
  | zero => simp [leRead]
  | succ n ih =>
    have hb : byteAt bs 0 < 256 := Nat.mod_lt _ (by norm_num)
    have := ih bs.tail
    simp only [leRead, pow_succ]
    omega

theorem leRead_leWrite (v n : Nat) : leRead (leWrite v n) n = v % 256 ^ n := by
  induction n generalizing v with
  | zero => simp [leRead, leWrite, Nat.mod_one]
  | succ n ih =>
    have hrec := ih (v / 256)
    have hsplit : v % (256 * 256 ^ n) = v % 256 + 256 * (v / 256 % 256 ^ n) :=
      Nat.mod_mul
    have hpow : (256 : Nat) ^ (n + 1) = 256 * 256 ^ n := by ring
    simp only [leWrite, leRead, byteAt, List.tail_cons, List.getD_cons_zero, hrec, hpow]
    generalize v / 256 % 256 ^ n = B at hsplit ⊢
    generalize hL : v % (256 * 256 ^ n) = L at hsplit ⊢
    omega

/-! ## Claim C1 -/

/--
C1 (corrected): in the length-delimited framing the tag values are the
reverse of the claim: `ParseUDPPacket` with `is_legacy = false` dispatches a
first byte equal to `UDPPacketPing` (= 1) to the ping unmarshaller and a
first byte equal to `UDPPacketAudio` (= 0) to the audio unmarshaller — so
`[1]` parses as a (default) ping and `[0]` yields no packet (audio without
Opus data is invalid) — and the length-delimited emission of every ping
packet begins with byte 1; the emission of every audio packet also begins
with byte 1, because `AudioPacket.ProtobufData` writes the ping tag.
-/
theorem C1_protobuf_tags :
    (∀ rest : List Nat,
      ParseUDPPacket (1 :: rest) false = ((parsePingPacketProtobuf rest).map .ping, false)) ∧
    (∀ rest : List Nat,
      ParseUDPPacket (0 :: rest) false = ((parseAudioPacketProtobuf rest).map .audio, false)) ∧
    (∀ p : PingPacket, p.ProtobufData.headD 0 = UDPPacketPing) ∧
    (∀ a : AudioPacket, a.ProtobufData.headD 0 = UDPPacketPing) ∧
    ParseUDPPacket [1] false =
      (some (.ping { Timestamp := 0, RequestExtendedInformation := false }), false) ∧
    ParseUDPPacket [0] false = (none, false) :=
  ⟨fun _ => rfl, fun _ => rfl, fun _ => rfl, fun _ => rfl, rfl, rfl⟩

/--
C1 counterexample: the length-delimited emission of a concrete ping packet
begins with byte 1, not 0, and the one-byte datagram `[1]` parses as a ping
while `[0]` does not — the opposite of the claimed tag assignment.
-/
theorem C1_protobuf_tags_cx :
    (PingPacket.ProtobufData { Timestamp := 0, RequestExtendedInformation := false }).headD 0 ≠ 0 ∧
    ParseUDPPacket [1] false =
      (some (.ping { Timestamp := 0, RequestExtendedInformation := false }), false) ∧
    ParseUDPPacket [0] false = (none, false) :=
  ⟨by decide, rfl, rfl⟩

/-! ## Claim C3 -/

/--
C3 (corrected): a 12-byte datagram whose first 4 bytes are zero parses, in
legacy mode, as a legacy extended ping: `RequestExtendedInformation` is set,
the 8 bytes after the zero prefix are recorded as the opaque timestamp, and
the result reports the legacy wire format.  (24-byte datagrams do not: see
the counterexample.)
-/
theorem C3_zero_ping_12 (ts : List Nat) (h : ts.length = 8) :
    ParseUDPPacket (0 :: 0 :: 0 :: 0 :: ts) true =
      (some (.ping { Timestamp := Uint64LE ts, RequestExtendedInformation := true }), true) := by
  have hlen : (0 :: 0 :: 0 :: 0 :: ts).length = 12 := by simp [h]
  have h32 : Uint32LE (0 :: 0 :: 0 :: 0 :: ts) = 0 := by
    simp [Uint32LE, leRead, byteAt]
  simp [ParseUDPPacket, parsePingPacketLegacy, hlen, h32, UDPPacketPing]

/-- C3 witness: a concrete 12-byte zero-prefixed datagram. -/
theorem C3_zero_ping_12_witness :
    ParseUDPPacket (0 :: 0 :: 0 :: 0 :: [1, 2, 3, 4, 5, 6, 7, 8]) true =
      (some (.ping { Timestamp := Uint64LE [1, 2, 3, 4, 5, 6, 7, 8],
                     RequestExtendedInformation := true }), true) :=
  C3_zero_ping_12 [1, 2, 3, 4, 5, 6, 7, 8] rfl

/--
C3 counterexample: a 24-byte all-zero datagram (first 4 bytes zero) does not
become an extended ping — `parsePingPacketLegacy` insists on exactly 12
bytes, so the datagram falls through to the legacy CELT-alpha voice path and
yields no packet at all.
-/
theorem C3_zero_ping_24_cx :
    ParseUDPPacket (List.replicate 24 0) true = (none, true) := by decide

/-! ## Claim C4 -/

/-- An ordinary legacy Opus voice body (non-empty payload, no positional
suffix) drives the payload slice out of range: the source's
`data[1+offset : 1+offset+payloadSize]` with `offset` taken after the
`Skip` is a runtime panic there, not a parse. -/
theorem audioConsume_opus_slice_panic :
    audioConsume [0, 0, 2, 7, 7] .CodecOpus = .error () := rfl

/--
C4 (confirmed): whenever the codec-specific consuming stage of
`parseAudioPacketLegacy` completes without panicking on the payload slice,
the packet is accepted only when the remaining trailing bytes number 0 (no
positional data) or exactly 12, read as three float32 values of positional
audio; any other non-zero remainder makes the whole parse return `none`.
-/
theorem C4_trailing_bytes (d : List Nat) (c : AudioCodec) (a : AudioPacket)
    (pds : PacketData) (h : audioConsume d c = .ok (some (a, pds))) :
    (pds.Left ≠ 0 → pds.Left ≠ 12 → parseAudioPacketLegacyE d c = .ok none) ∧
    (pds.Left = 0 → parseAudioPacketLegacyE d c = .ok (some a)) ∧
    (pds.Left = 12 → parseAudioPacketLegacyE d c =
      .ok (some { a with PositionalData :=
        [pds.GetFloat32.1, pds.GetFloat32.2.GetFloat32.1,
         pds.GetFloat32.2.GetFloat32.2.GetFloat32.1] })) ∧
    (∀ a2, parseAudioPacketLegacyE d c = .ok (some a2) → pds.Left = 0 ∨ pds.Left = 12) := by
  have heq : parseAudioPacketLegacyE d c =
      (if pds.Left == 3 * 4 then
        .ok (some { a with PositionalData :=
          [pds.GetFloat32.1, pds.GetFloat32.2.GetFloat32.1,
           pds.GetFloat32.2.GetFloat32.2.GetFloat32.1] })
      else if pds.Left > 0 then .ok none else .ok (some a)) := by
    unfold parseAudioPacketLegacyE
    rw [h]
  rw [heq]
  refine ⟨fun h0 h12 => ?_, fun h0 => ?_, fun h12 => ?_, fun a2 ha2 => ?_⟩
  · rw [if_neg (by simpa using h12), if_pos (Nat.pos_of_ne_zero h0)]
  · rw [if_neg (by simp [h0]), if_neg (by simp [h0])]
  · rw [if_pos (by simp [h12])]
  · by_contra hc
    push_neg at hc
    rw [if_neg (by simpa using hc.2), if_pos (Nat.pos_of_ne_zero hc.1)] at ha2
    exact Option.noConfusion (Except.ok.inj ha2)

/-- C4 witness: a CELT-alpha body with 5 trailing bytes is rejected. -/
theorem C4_trailing_bytes_witness :
    parseAudioPacketLegacyE [0, 0, 0, 9, 9, 9, 9, 9] .CodecCELTAlpha = .ok none :=
  (C4_trailing_bytes [0, 0, 0, 9, 9, 9, 9, 9] .CodecCELTAlpha
      { UsedCodec := .CodecCELTAlpha, IsTerminator := true }
      ⟨[0, 0, 9, 9, 9, 9, 9], 2, true⟩ rfl).1 (by decide) (by decide)

/-! ## Claim C2 -/

theorem parsePingPacketLegacy_val (t : List Nat) (p : PingPacket)
    (h : parsePingPacketLegacy t = some p) :
    p.RequestExtendedInformation = true ∧ p.Timestamp < 2 ^ 64 := by
  unfold parsePingPacketLegacy at h
  split at h
  · exact absurd h (by simp)
  · cases h
    refine ⟨rfl, ?_⟩
    rw [show (2 : Nat) ^ 64 = 256 ^ 8 by norm_num]
    exact leRead_lt _ 8

theorem ParseUDPPacket_legacy_ping_inv (d : List Nat) (p : PingPacket)
    (h : ParseUDPPacket d true = (some (.ping p), true)) :
    p.RequestExtendedInformation = true ∧ p.Timestamp < 2 ^ 64 := by
  match d with
  | [] => simp [ParseUDPPacket] at h
  | h0 :: rest =>
    simp only [ParseUDPPacket] at h
    split at h
    · simp at h
    · split at h
      case _ packet heq =>
        split at heq
        · simp only [Prod.mk.injEq, Option.some.injEq, UDPPacket.ping.injEq] at h
          obtain ⟨rfl, -⟩ := h
          exact parsePingPacketLegacy_val _ _ heq
        · exact absurd heq (by simp)
      case _ heq =>
        split at h
        · simp only [Prod.mk.injEq] at h
          obtain ⟨hmap, -⟩ := h
          obtain ⟨q, hq, hqp⟩ := Option.map_eq_some'.mp hmap
          cases hqp
          exact parsePingPacketLegacy_val _ _ hq
        · split at h
          · simp [Option.map_eq_some'] at h
          · split at h
            · simp [Option.map_eq_some'] at h
            · split at h
              · simp [Option.map_eq_some'] at h
              · split at h
                · simp [Option.map_eq_some'] at h
                · simp at h

theorem ping_legacy_emit_parse (ts : Nat) (hlt : ts < 2 ^ 64) :
    ParseUDPPacket (PingPacket.LegacyData ⟨ts, true⟩) true = (some (.ping ⟨ts, true⟩), true) := by
  have hform : PingPacket.LegacyData ⟨ts, true⟩ =
      32 :: (0 :: 0 :: 0 :: 0 :: leWrite ts 8) := rfl
  have hlen : (0 :: 0 :: 0 :: 0 :: leWrite ts 8).length = 12 := by
    simp [leWrite_length]
  have h32 : Uint32LE (0 :: 0 :: 0 :: 0 :: leWrite ts 8) = 0 := by
    simp [Uint32LE, leRead, byteAt]
  have hts : Uint64LE (leWrite ts 8) = ts := by
    rw [Uint64LE, leRead_leWrite, show (256 : Nat) ^ 8 = 2 ^ 64 by norm_num,
      Nat.mod_eq_of_lt hlt]
  rw [hform]
  simp [ParseUDPPacket, parsePingPacketLegacy, hlen, h32, hts, UDPPacketPing, UDPMessagePing]

theorem pbVarintEnc_dec (fuel v : Nat) (rest : List Nat) (hv : v < 2 ^ (7 * fuel + 7)) :
    pbVarintDecAux (fuel + 1) (pbVarintEnc v ++ rest) = some (v, rest) := by
  induction fuel generalizing v with
  | zero =>
    have hv128 : v < 128 := by norm_num at hv; omega
    have hm : v % 256 = v := Nat.mod_eq_of_lt (by omega)
    unfold pbVarintEnc
    rw [if_pos hv128]
    simp [pbVarintDecAux, hm, hv128]
  | succ n ih =>
    by_cases hsmall : v < 0x80
    · have hm : v % 256 = v := Nat.mod_eq_of_lt (by omega)
      unfold pbVarintEnc
      rw [if_pos hsmall]
      simp [pbVarintDecAux, hm, hsmall]
    · have hb : (v % 128 + 128) % 256 = v % 128 + 128 :=
        Nat.mod_eq_of_lt (by omega)
      have hpow : (2 : Nat) ^ (7 * (n + 1) + 7) = 128 * 2 ^ (7 * n + 7) := by
        rw [show 7 * (n + 1) + 7 = (7 * n + 7) + 7 by ring, pow_add]
        ring
      have hdiv : v / 128 < 2 ^ (7 * n + 7) := Nat.div_lt_of_lt_mul (hpow ▸ hv)
      have hrec := ih (v / 128) hdiv
      have hand : (v % 128 + 128) &&& 127 = (v % 128 + 128) % 128 :=
        Nat.and_pow_two_sub_one_eq_mod _ 7
      have hcond : ¬(v % 128 + 128 < 0x80) := by omega
      unfold pbVarintEnc
      rw [if_neg hsmall]
      simp [pbVarintDecAux, hb, hcond, hrec, hand]
      omega

theorem pbReadVarint_enc (v : Nat) (rest : List Nat) (hv : v < 2 ^ 64) :
    pbReadVarint (pbVarintEnc v ++ rest) = some (v, rest) := by
  have h10 : pbVarintDecAux 10 (pbVarintEnc v ++ rest) = some (v, rest) :=
    pbVarintEnc_dec 9 v rest (lt_trans hv (by norm_num))
  unfold pbReadVarint
  rw [h10]
  show some (mask64 v, rest) = some (v, rest)
  rw [show mask64 v = v from Nat.mod_eq_of_lt hv]

theorem pbReadVarint_tag (t : Nat) (rest : List Nat) (ht : t < 128) :
    pbReadVarint (t :: rest) = some (t, rest) := by
  have h := pbReadVarint_enc t rest (by omega)
  rw [pbVarintEnc, if_pos ht] at h
  simpa using h

theorem pingUnmarshalAux_nil (fuel : Nat) (acc : PingPacket) :
    pingUnmarshalAux fuel [] acc = some acc := by
  cases fuel <;> rfl

theorem pingUnmarshalAux_ts (fuel ts : Nat) (rest : List Nat) (acc : PingPacket)
    (hts : ts < 2 ^ 64) :
    pingUnmarshalAux (fuel + 1) (0x08 :: (pbVarintEnc ts ++ rest)) acc =
      pingUnmarshalAux fuel rest { acc with Timestamp := ts } := by
  simp [pingUnmarshalAux, pbReadVarint_tag 0x08 _ (by norm_num),
    pbReadVarint_enc ts rest hts]

theorem pingUnmarshalAux_rei (fuel : Nat) (rest : List Nat) (acc : PingPacket) :
    pingUnmarshalAux (fuel + 1) (0x10 :: 1 :: rest) acc =
      pingUnmarshalAux fuel rest { acc with RequestExtendedInformation := true } := by
  simp [pingUnmarshalAux, pbReadVarint_tag 0x10 _ (by norm_num),
    pbReadVarint_tag 1 _ (by norm_num)]

theorem pingProto_roundtrip (p : PingPacket) (hts : p.Timestamp < 2 ^ 64) :
    parsePingPacketProtobuf (marshalPing p) = some p := by
  rcases p with ⟨ts, rei⟩
  have hm : mask64 ts = ts := Nat.mod_eq_of_lt hts
  by_cases h0 : ts = 0
  · subst h0
    cases rei
    · simp [marshalPing, parsePingPacketProtobuf, pingUnmarshalAux_nil]
    · have hdata : marshalPing ⟨0, true⟩ = 0x10 :: 1 :: [] := by simp [marshalPing]
      unfold parsePingPacketProtobuf
      rw [hdata, show (0x10 :: 1 :: ([] : List Nat)).length + 1 = 2 + 1 from rfl,
        pingUnmarshalAux_rei, pingUnmarshalAux_nil]
  · cases rei
    · have hdata : marshalPing ⟨ts, false⟩ = 0x08 :: (pbVarintEnc ts ++ []) := by
        simp [marshalPing, h0, hm]
      unfold parsePingPacketProtobuf
      rw [hdata]
      simp only [List.length_cons, List.length_append, List.length_nil, Nat.add_zero]
      rw [pingUnmarshalAux_ts _ ts [] _ hts, pingUnmarshalAux_nil]
    · have hdata : marshalPing ⟨ts, true⟩ = 0x08 :: (pbVarintEnc ts ++ (0x10 :: 1 :: [])) := by
        simp [marshalPing, h0, hm]
      unfold parsePingPacketProtobuf
      rw [hdata]
      have hfuel : (0x08 :: (pbVarintEnc ts ++ (0x10 :: 1 :: []))).length + 1 =
          (((pbVarintEnc ts).length + 2) + 1) + 1 := by
        simp only [List.length_cons, List.length_append, List.length_nil]
      rw [hfuel, pingUnmarshalAux_ts _ ts _ _ hts, pingUnmarshalAux_rei,
        pingUnmarshalAux_nil]

theorem pbReadVarint_lt (bs : List Nat) (v : Nat) (r : List Nat)
    (h : pbReadVarint bs = some (v, r)) : v < 2 ^ 64 := by
  unfold pbReadVarint at h
  split at h
  · exact absurd h (by simp)
  · simp only [Option.some.injEq, Prod.mk.injEq] at h
    obtain ⟨rfl, -⟩ := h
    exact Nat.mod_lt _ (by norm_num)

theorem pingUnmarshalAux_lt (fuel : Nat) (bs : List Nat) (acc p : PingPacket)
    (hacc : acc.Timestamp < 2 ^ 64) (h : pingUnmarshalAux fuel bs acc = some p) :
    p.Timestamp < 2 ^ 64 := by
  induction fuel generalizing bs acc with
  | zero =>
    cases bs with
    | nil =>
      rw [pingUnmarshalAux_nil] at h
      obtain rfl := Option.some.inj h
      exact hacc
    | cons b rest => simp [pingUnmarshalAux] at h
  | succ n ih =>
    cases bs with
    | nil =>
      rw [pingUnmarshalAux_nil] at h
      obtain rfl := Option.some.inj h
      exact hacc
    | cons b rest =>
      rcases hr : pbReadVarint (b :: rest) with _ | ⟨tag, rest2⟩
      · simp [pingUnmarshalAux, hr] at h
      · simp only [pingUnmarshalAux, hr] at h
        split at h
        · rcases hr2 : pbReadVarint rest2 with _ | ⟨v, rest3⟩
          · simp [hr2] at h
          · simp only [hr2] at h
            exact ih _ _ (pbReadVarint_lt _ _ _ hr2) h
        · split at h
          · rcases hr2 : pbReadVarint rest2 with _ | ⟨v, rest3⟩
            · simp [hr2] at h
            · simp only [hr2] at h
              exact ih rest3 ⟨acc.Timestamp, decide (v ≠ 0)⟩ hacc h
          · rcases hr2 : pbSkipField (tag &&& 7) rest2 with _ | rest3
            · simp [hr2] at h
            · simp only [hr2] at h
              exact ih _ _ hacc h

theorem ParseUDPPacket_proto_ping_inv (d : List Nat) (b : Bool) (p : PingPacket)
    (h : ParseUDPPacket d b = (some (.ping p), false)) :
    p.Timestamp < 2 ^ 64 := by
  have key : ∀ bs, parsePingPacketProtobuf bs = some p → p.Timestamp < 2 ^ 64 :=
    fun bs hbs => pingUnmarshalAux_lt _ _ _ _ (by norm_num) hbs
  match d, b with
  | [], true => simp [ParseUDPPacket] at h
  | [], false => simp [ParseUDPPacket] at h
  | h0 :: rest, true =>
    simp only [ParseUDPPacket] at h
    split at h
    · simp only [Prod.mk.injEq] at h
      obtain ⟨hm, -⟩ := h
      obtain ⟨q, hq, hqp⟩ := Option.map_eq_some'.mp hm
      cases hqp
      exact key _ hq
    · split at h
      · simp at h
      · split at h
        · simp at h
        · split at h
          · simp at h
          · split at h
            · simp at h
            · split at h
              · simp at h
              · split at h
                · simp at h
                · simp at h
  | h0 :: rest, false =>
    simp only [ParseUDPPacket] at h
    split at h
    · simp only [Prod.mk.injEq] at h
      obtain ⟨hm, -⟩ := h
      obtain ⟨q, hq, hqp⟩ := Option.map_eq_some'.mp hm
      cases hqp
      exact key _ hq
    · split at h
      · simp [Option.map_eq_some'] at h
      · simp at h

theorem pingProto_emit_parse (p : PingPacket) (hts : p.Timestamp < 2 ^ 64) :
    ParseUDPPacket (UDPPacket.ping p).ProtobufData false = (some (.ping p), false) := by
  have hstep : ParseUDPPacket (UDPPacket.ping p).ProtobufData false =
      ((parsePingPacketProtobuf (marshalPing p)).map .ping, false) := rfl
  rw [hstep, pingProto_roundtrip p hts]
  rfl

/--
C2 (corrected): the parse–emit–parse round-trip holds for ping packets in
both framings: whenever `ParseUDPPacket` yields a ping packet in the legacy
wire format, re-parsing its `LegacyData` yields the same packet, and
whenever it yields a ping packet in the length-delimited format, re-parsing
its `ProtobufData` yields the same packet.  (Voice packets round-trip in
neither framing: see the counterexample.)
-/
theorem C2_ping_roundtrip (d : List Nat) (b : Bool) (p : PingPacket) :
    (ParseUDPPacket d true = (some (.ping p), true) →
      ParseUDPPacket (UDPPacket.ping p).LegacyData true = (some (.ping p), true)) ∧
    (ParseUDPPacket d b = (some (.ping p), false) →
      ParseUDPPacket (UDPPacket.ping p).ProtobufData false = (some (.ping p), false)) := by
  constructor
  · intro h
    obtain ⟨hrei, hlt⟩ := ParseUDPPacket_legacy_ping_inv d p h
    cases p with
    | mk ts rei =>
      cases hrei
      exact ping_legacy_emit_parse ts hlt
  · intro h
    exact pingProto_emit_parse p (ParseUDPPacket_proto_ping_inv d b p h)

/-- C2 witness: a concrete 12-byte extended ping round-trips in the legacy
framing, and a concrete length-delimited ping round-trips through
`ProtobufData`. -/
theorem C2_ping_roundtrip_witness :
    ParseUDPPacket (UDPPacket.ping ⟨0, true⟩).LegacyData true =
      (some (.ping ⟨0, true⟩), true) ∧
    ParseUDPPacket (UDPPacket.ping ⟨5, false⟩).ProtobufData false =
      (some (.ping ⟨5, false⟩), false) :=
  ⟨(C2_ping_roundtrip (List.replicate 12 0) false ⟨0, true⟩).1 (by decide),
   (C2_ping_roundtrip [1, 0x08, 5] false ⟨5, false⟩).2 (by decide)⟩

/--
C2 counterexample, refuting both voice halves of the claim.  Legacy: a
legal CELT-alpha voice datagram with a non-zero target parses, but emitting
the parsed packet and parsing again yields no packet at all (the emission
drops the target byte, so the re-parsed body is too short).
Length-delimited: a legal audio datagram parses, but its `ProtobufData`
emission begins with the ping tag, so parsing it again yields a ping
packet, not the original audio packet.
-/
theorem C2_voice_roundtrip_cx :
    ParseUDPPacket [0, 5, 0, 0] true =
      (some (.audio { IsTerminator := true, UsedCodec := .CodecCELTAlpha,
                      TargetOrContext := 5 }), true) ∧
    ParseUDPPacket
        (UDPPacket.audio { IsTerminator := true, UsedCodec := .CodecCELTAlpha,
                           TargetOrContext := 5 }).LegacyData true = (none, true) ∧
    ParseUDPPacket [0, 0x2A, 1, 7] false =
      (some (.audio { OpusData := [7], Payload := [7] }), false) ∧
    ParseUDPPacket (UDPPacket.audio { OpusData := [7], Payload := [7] }).ProtobufData false =
      (some (.ping { Timestamp := 0, RequestExtendedInformation := false }), false) := by
  refine ⟨by decide, by decide, by decide, ?_⟩
  have henc1 : pbVarintEnc 1 = [1] := by
    rw [pbVarintEnc]
    norm_num
  have hma : marshalAudio { OpusData := [7], Payload := [7] } = [0x2A, 1, 7] := by
    simp [marshalAudio, henc1]
  have hpd : (UDPPacket.audio { OpusData := [7], Payload := [7] }).ProtobufData =
      1 :: marshalAudio { OpusData := [7], Payload := [7] } := rfl
  rw [hpd, hma]
  decide

/-! ## Claim C5 -/

/--
C5 (corrected): `cryptResync` sends a `CryptSetup` request exactly when more
than 5 seconds have passed since the last good decryption and more than 5
seconds since the previous resync request, recording the new resync time —
but the message it sends is empty: it carries no client nonce at all.
-/
theorem C5_cryptResync_guard (now lg lr : Int) :
    (now - lg > 5 → now - lr > 5 →
      cryptResync now lg lr = (now, [{}]) ∧
      ∀ m ∈ (cryptResync now lg lr).2, m.ClientNonce = none) ∧
    (¬(now - lg > 5 ∧ now - lr > 5) → cryptResync now lg lr = (lr, [])) := by
  constructor
  · intro h1 h2
    refine ⟨by simp [cryptResync, h1, h2], ?_⟩
    intro m hm
    simp [cryptResync, h1, h2] at hm
    subst hm
    rfl
  · intro h
    unfold cryptResync
    split_ifs with ha hb
    · exact absurd ⟨ha, hb⟩ h
    · rfl
    · rfl

/-- C5 witness: both guard outcomes at concrete times. -/
theorem C5_cryptResync_guard_witness :
    (cryptResync 100 0 0 = (100, [{}]) ∧
      ∀ m ∈ (cryptResync 100 0 0).2, m.ClientNonce = none) ∧
    cryptResync 100 0 98 = (98, []) :=
  ⟨(C5_cryptResync_guard 100 0 0).1 (by decide) (by decide),
   (C5_cryptResync_guard 100 0 98).2 (by decide)⟩

/--
C5 counterexample: at a time where both resync conditions hold, the sent
`CryptSetup` message has no `client_nonce` field set, contradicting the
claim that the request contains a fresh client nonce.
-/
theorem C5_cryptResync_cx :
    cryptResync 100 0 0 =
      (100, [{ Key := none, ClientNonce := none, ServerNonce := none }]) ∧
    ({ Key := none, ClientNonce := none, ServerNonce := none } : CryptSetup).ClientNonce =
      none := by
  exact ⟨by decide, rfl⟩

/-! ## Claim C6 -/

theorem disconnect_of_disconnected (k : Bool) (w : DisconnectWorld)
    (h : w.disconnected = true) : disconnect k w = w := by
  simp [disconnect, h]

/--
C6 (confirmed): the first `disconnect` call on a connected client flips the
disconnected flag, removes the client from the server's session index,
closes the UDP receive queue, closes the readiness signal exactly when the
state is ClientSentVersion or ClientAuthenticated, closes the transport and
recomputes the aggregate codec preference; every further `disconnect`,
`Disconnect`, `ForceDisconnect` or `Panic` is the identity.
-/
theorem C6_disconnect_idempotent (w : DisconnectWorld) (k k2 : Bool)
    (h : w.disconnected = false) :
    ((disconnect k w).disconnected = true ∧
     (disconnect k w).serverSessions = w.serverSessions.filter (· ≠ w.session) ∧
     (disconnect k w).removeCalls = w.removeCalls ++ [(w.session, k)] ∧
     (disconnect k w).udprecvOpen = false ∧
     ((w.state = .StateClientSentVersion ∨ w.state = .StateClientAuthenticated) →
        (disconnect k w).clientReadyOpen = false) ∧
     (¬(w.state = .StateClientSentVersion ∨ w.state = .StateClientAuthenticated) →
        (disconnect k w).clientReadyOpen = w.clientReadyOpen) ∧
     (disconnect k w).connOpen = false ∧
     (disconnect k w).codecRecomputes = w.codecRecomputes + 1) ∧
    (disconnect k2 (disconnect k w) = disconnect k w ∧
     ClientDisconnect (disconnect k w) = disconnect k w ∧
     ClientForceDisconnect (disconnect k w) = disconnect k w ∧
     ClientPanic (disconnect k w) = disconnect k w) := by
  have hbody : disconnect k w =
      { w with
        disconnected := true
        serverSessions := w.serverSessions.filter (· ≠ w.session)
        removeCalls := w.removeCalls ++ [(w.session, k)]
        udprecvOpen := false
        clientReadyOpen :=
          if w.state = .StateClientSentVersion ∨ w.state = .StateClientAuthenticated then false
          else w.clientReadyOpen
        connOpen := false
        codecRecomputes := w.codecRecomputes + 1 } := by
    rw [disconnect, if_neg (by simp [h])]
  have hd : (disconnect k w).disconnected = true := by rw [hbody]
  refine ⟨⟨hd, by rw [hbody], by rw [hbody], by rw [hbody], ?_, ?_, by rw [hbody],
      by rw [hbody]⟩,
    disconnect_of_disconnected k2 _ hd, disconnect_of_disconnected false _ hd,
    disconnect_of_disconnected true _ hd, disconnect_of_disconnected false _ hd⟩
  · intro hst
    rw [hbody]
    simp [if_pos hst]
  · intro hst
    rw [hbody]
    simp [if_neg hst]

/-- C6 witness: a concrete connected client in state ClientSentVersion. -/
theorem C6_disconnect_idempotent_witness :
    (disconnect true ⟨false, .StateClientSentVersion, 7, [7, 8], true, true, true, [], 0⟩).disconnected = true ∧
    disconnect false
        (disconnect true ⟨false, .StateClientSentVersion, 7, [7, 8], true, true, true, [], 0⟩) =
      disconnect true ⟨false, .StateClientSentVersion, 7, [7, 8], true, true, true, [], 0⟩ ∧
    (disconnect true ⟨false, .StateClientSentVersion, 7, [7, 8], true, true, true, [], 0⟩).clientReadyOpen = false :=
  ⟨(C6_disconnect_idempotent _ true false rfl).1.1,
   (C6_disconnect_idempotent _ true false rfl).2.1,
   (C6_disconnect_idempotent _ true false rfl).1.2.2.2.2.1 (Or.inl rfl)⟩

/-! ## Claim C7 -/

/--
C7 (confirmed): in the Ready state, a `UDPTunnel` control frame clears the
client's udp flag and is appended to the client's UDP receive queue, and
every other kind resets the idle counter and is appended to the server's
incoming queue as a `Message`; `UDPTunnel` frames never reach the incoming
queue.
-/
theorem C7_ready_routing (w : RecvWorld) (kind : Nat) (buf : List Nat) :
    (kind = MessageUDPTunnel →
      readyHandle w kind buf = { w with udp := false, udprecvQ := w.udprecvQ ++ [buf] }) ∧
    (kind ≠ MessageUDPTunnel →
      readyHandle w kind buf =
        { w with idleResets := w.idleResets + 1,
                 incomingQ := w.incomingQ ++ [⟨kind, buf, w.session⟩] }) ∧
    (kind = MessageUDPTunnel → (readyHandle w kind buf).incomingQ = w.incomingQ) := by
  refine ⟨fun hk => ?_, fun hk => ?_, fun hk => ?_⟩
  · simp [readyHandle, hk]
  · simp [readyHandle, hk]
  · simp [readyHandle, hk]

/-- C7 witness: a tunnel frame and an ordinary frame at concrete values. -/
theorem C7_ready_routing_witness :
    readyHandle ⟨5, true, [], [], 0⟩ 1 [9] =
      { session := 5, udp := false, udprecvQ := [[9]], incomingQ := [], idleResets := 0 } ∧
    readyHandle ⟨5, true, [], [], 0⟩ 2 [9] =
      { session := 5, udp := true, udprecvQ := [],
        incomingQ := [⟨2, [9], 5⟩], idleResets := 1 } :=
  ⟨(C7_ready_routing ⟨5, true, [], [], 0⟩ 1 [9]).1 rfl,
   (C7_ready_routing ⟨5, true, [], [], 0⟩ 2 [9]).2.1 (by decide)⟩

/-! ## Claim C8 -/

/--
C8 (corrected): when the bandwidth recorder rejects an inbound datagram, the
frame is dropped without being echoed or broadcast and without any message
to the client — but the UDP receive loop logs and returns, so the remaining
datagrams in the queue are never processed.
-/
theorem C8_bandwidth_reject_returns (w : UdpLoopWorld) (buf : List Nat)
    (rest : List (List Nat)) (hne : buf.length ≠ 0)
    (hbw : w.maxBandwidth < w.windowBytes + buf.length) :
    udpRecvLoop (buf :: rest) w = { w with logLines := w.logLines + 1 } ∧
    (udpRecvLoop (buf :: rest) w).sentUDP = w.sentUDP ∧
    (udpRecvLoop (buf :: rest) w).broadcasts = w.broadcasts := by
  have hstep : udpRecvLoop (buf :: rest) w = { w with logLines := w.logLines + 1 } := by
    simp only [udpRecvLoop, AddFrame]
    rw [if_neg (by simpa using hne), if_neg (by omega)]
  exact ⟨hstep, by rw [hstep], by rw [hstep]⟩

set_option maxRecDepth 40000 in
/-- C8 witness: an oversized frame is dropped with only a log line. -/
theorem C8_bandwidth_reject_returns_witness :
    udpRecvLoop [List.replicate 200 1, List.replicate 12 0] ⟨0, 100, true, 9, [], [], 0⟩ =
      { windowBytes := 0, maxBandwidth := 100, isLegacy := true, session := 9,
        sentUDP := [], broadcasts := [], logLines := 1 } :=
  (C8_bandwidth_reject_returns ⟨0, 100, true, 9, [], [], 0⟩ (List.replicate 200 1)
    [List.replicate 12 0] (by simp) (by simp)).1

set_option maxRecDepth 40000 in
/--
C8 counterexample: with an oversized frame at the head of the queue, a
well-formed legacy ping behind it is never echoed; had the loop continued,
the same ping alone is echoed.  This refutes the claim that the loop
continues to process subsequent datagrams after a bandwidth rejection.
-/
theorem C8_reject_stops_queue_cx :
    (udpRecvLoop [List.replicate 200 1, List.replicate 12 0]
        ⟨0, 100, true, 9, [], [], 0⟩).sentUDP = [] ∧
    (udpRecvLoop [List.replicate 12 0] ⟨0, 100, true, 9, [], [], 0⟩).sentUDP =
      [PingPacket.LegacyData { Timestamp := 0, RequestExtendedInformation := true }] :=
  ⟨by decide, by decide⟩

/-! ## Claim C9 -/

/--
C9 (confirmed): `freezeToFile` never exposes a partial snapshot as
`main.fz`: on any failure the prior `main.fz` is unchanged, and on success
`main.fz` holds the full new snapshot, with the previous snapshot kept as
`backup.fz` when one existed (first-freeze installs by plain rename and
leaves the backup untouched).
-/
theorem C9_freeze_atomic (srv : FreezeServer) (fs : FreezeFS) (oracle : List Bool) :
    ((freezeToFile srv fs oracle).1 = false →
      (freezeToFile srv fs oracle).2.mainFz = fs.mainFz) ∧
    ((freezeToFile srv fs oracle).1 = true →
      (freezeToFile srv fs oracle).2.mainFz = some srv.snapshot ∧
      (fs.mainFz = none → (freezeToFile srv fs oracle).2.backupFz = fs.backupFz) ∧
      (∀ m, fs.mainFz = some m → (freezeToFile srv fs oracle).2.backupFz = some m)) := by
  obtain ⟨mfz, bfz, tfz⟩ := fs
  rcases hfz : freezeToFile srv ⟨mfz, bfz, tfz⟩ oracle with ⟨r, fs2⟩
  unfold freezeToFile oracleNext at hfz
  repeat' split at hfz
  all_goals try cases mfz
  all_goals simp_all
  all_goals obtain ⟨-, rfl⟩ := hfz
  all_goals simp

/-- C9 witness: a successful freeze over an existing snapshot, and a failed
first step leaving the snapshot untouched. -/
theorem C9_freeze_atomic_witness :
    (freezeToFile ⟨true, [1, 2, 3]⟩ ⟨some [9], some [8], none⟩ []).2.mainFz = some [1, 2, 3] ∧
    (freezeToFile ⟨true, [1, 2, 3]⟩ ⟨some [9], some [8], none⟩ []).2.backupFz = some [9] ∧
    (freezeToFile ⟨true, [1, 2, 3]⟩ ⟨some [9], some [8], none⟩ [false]).2.mainFz = some [9] :=
  ⟨((C9_freeze_atomic ⟨true, [1, 2, 3]⟩ ⟨some [9], some [8], none⟩ []).2 (by decide)).1,
   ((C9_freeze_atomic ⟨true, [1, 2, 3]⟩ ⟨some [9], some [8], none⟩ []).2 (by decide)).2.2 [9] rfl,
   (C9_freeze_atomic ⟨true, [1, 2, 3]⟩ ⟨some [9], some [8], none⟩ [false]).1 (by decide)⟩

/-! ## Claim C10 -/

/--
C10 (confirmed): `BanWrite` deletes every stored ban of every virtual
server (its delete condition is the constant `TRUE`) before inserting the
new list, so after a `BanWrite` whose bans all belong to server `s`,
`BanRead` for any other server id returns the empty list and a zero count.
-/
theorem C10_banwrite_global_delete (db bans : List Ban) (s sid : Nat)
    (hall : ∀ b ∈ bans, b.ServerID = s) (hne : sid ≠ s) (limit offset : Nat) :
    BanWrite db bans = bans ∧
    BanRead (BanWrite db bans) sid limit offset = ([], 0) := by
  have hw : BanWrite db bans = bans := by simp [BanWrite]
  refine ⟨hw, ?_⟩
  rw [hw]
  unfold BanRead
  have hfilter : bans.filter (fun b => decide (b.ServerID = sid)) = [] := by
    rw [List.filter_eq_nil_iff]
    intro a ha
    simp only [decide_eq_true_eq]
    rw [hall a ha]
    exact fun hcon => hne hcon.symm
  rw [hfilter]
  simp

/-- C10 witness: after writing server 3's bans, server 4 reads nothing. -/
theorem C10_banwrite_global_delete_witness :
    BanWrite [⟨4, [], 0, "x", [], "", 0, 0⟩] [⟨3, [], 0, "", [], "", 0, 120⟩] =
      [⟨3, [], 0, "", [], "", 0, 120⟩] ∧
    BanRead (BanWrite [⟨4, [], 0, "x", [], "", 0, 0⟩] [⟨3, [], 0, "", [], "", 0, 120⟩])
        4 10 0 = ([], 0) :=
  C10_banwrite_global_delete [⟨4, [], 0, "x", [], "", 0, 0⟩] [⟨3, [], 0, "", [], "", 0, 120⟩]
    3 4 (by simp) (by decide) 10 0
